import Mathlib

/-!
Verification development for the `rust-search-engine` crate
(`src/server/rust-search-engine/src/lib.rs`): a shallow embedding of the
document cache, the scorer, the query executor and the maintenance runner,
together with theorems settling the specification claims.

Modelling conventions:
* Rust `String`s are Lean `String`s; byte length of ASCII queries is modelled
  by character count (`String.length`).
* `f32` scores are modelled by `Nat`: every score the code produces is
  `occurrences * 10 + {0,5} + {0,2}`, a small integer that `f32` represents
  exactly, so `partial_cmp` on them coincides with the `Nat` order.
* File-system effects are modelled by explicit inputs: a directory walk is a
  list of entries, a file read either yields the list of lines or fails, a
  deletion either succeeds or fails according to an oracle.
* Wall-clock timestamps (`indexed_at`, `executed_at`) are irrelevant to every
  claim and are omitted from the records; `last_scanned` is kept as an
  abstract `Nat` tick because claim C7 mentions it.
-/

namespace FTS

/-! ### Strings: substring containment and occurrence counting

`line_lower.contains(query)` and `text.matches(query).count()` from the Rust
standard library, modelled on character lists. -/

/-- Substring containment, the model of Rust `str::contains` with a string
pattern: some suffix of `hay` starts with `needle`. The empty needle is
contained in every string, as in Rust. -/
def strContains (hay needle : List Char) : Bool :=
  (List.range (hay.length + 1)).any fun i => needle.isPrefixOf (hay.drop i)

/-- Splitting a character list at a separator, the model of
`String::split` used by the path helpers below; structurally recursive so
concrete instances evaluate inside proofs. -/
def splitOnChar (sep : Char) : List Char → List (List Char)
  | [] => [[]]
  | c :: rest =>
    if c == sep then [] :: splitOnChar sep rest
    else
      match splitOnChar sep rest with
      | [] => [[c]]
      | g :: gs => (c :: g) :: gs

/-- The model of Rust `str::to_lowercase`: lowercase character by
character (ASCII-faithful, which covers every claim). -/
def toLowerStr (s : String) : String := ⟨s.data.map Char.toLower⟩

/-- Helper for `countOcc`: scan `hay` left to right; `skip` counts characters
still to be consumed by the most recent match, so matches never overlap. -/
def countOccAux (needle : List Char) : List Char → Nat → Nat
  | [], _ => 0
  | _ :: rest, s + 1 => countOccAux needle rest s
  | c :: rest, 0 =>
    if needle.isPrefixOf (c :: rest) then
      1 + countOccAux needle rest (needle.length - 1)
    else
      countOccAux needle rest 0

/-- The model of Rust `str::matches(pattern).count()`: the number of
non-overlapping, leftmost-first occurrences of `needle` in `hay`. An empty
pattern matches at every character boundary, as in Rust. -/
def countOcc (needle hay : List Char) : Nat :=
  if needle.isEmpty then hay.length + 1 else countOccAux needle hay 0

/-! ### The word-boundary regex

`lib.rs` builds the pattern `\b<escaped query>\b` and tests the lowercased
line against it. Because the query is escaped it is matched as a literal, so
the regex semantics reduce to: the literal occurs at a position with a word
boundary on each side. -/

/-- A word character in the sense of the regex `\b` assertion. -/
def isWordChar (c : Char) : Bool := c.isAlphanum || c == '_'

/-- Whether the character at position `p` of `hay` is a word character
(out-of-range positions count as non-word). -/
def wordAt (hay : List Char) (p : Nat) : Bool :=
  match hay.get? p with
  | some c => isWordChar c
  | none => false

/-- The regex `\b` assertion at position `p`: the word-character status
changes between position `p - 1` and position `p`. -/
def boundaryAt (hay : List Char) (p : Nat) : Bool :=
  (match p with
   | 0 => false
   | q + 1 => wordAt hay q) != wordAt hay p

/-- The model of `regex::Regex::new("\b<escaped needle>\b").is_match(hay)`:
`needle` occurs somewhere in `hay` with a word boundary on both sides. -/
def wbMatch (needle hay : List Char) : Bool :=
  (List.range (hay.length + 1)).any fun i =>
    needle.isPrefixOf (hay.drop i) && boundaryAt hay i &&
      boundaryAt hay (i + needle.length)

/-- The model of compiling the escaped word-boundary pattern
(`regex::Regex::new` at lib.rs:224): compiling an escaped literal always
succeeds, yielding the word-boundary matcher; `none` is the (unreachable)
compilation-failure case the code treats as no match. -/
def compileWordBoundary (query : String) : Option (String → Bool) :=
  some fun text => wbMatch query.data text.data

/-- Model of `SearchEngine::calculate_score` (lib.rs:213-237), step for step: base
score of 10 per occurrence, then the word-boundary boost of 5 behind the
length-2 guard and the regex compilation, then the short-query boost of 2. -/
def calculate_score (text query : String) : Nat :=
  let score := countOcc query.data text.data * 10
  let score :=
    if query.length ≥ 2 then
      match compileWordBoundary query with
      | some re => if re text then score + 5 else score
      | none => score
    else score
  if query.length ≤ 4 then score + 2 else score

/-- The score formula exactly as the spec words it (§4.2): base plus the two
independent boosts, stated as one arithmetic sum. Kept separate from
`calculate_score` so the claim compares the code's sequential accumulation
against the spec's closed formula. -/
def score_spec (text query : String) : Nat :=
  countOcc query.data text.data * 10
    + (if 2 ≤ query.length ∧ wbMatch query.data text.data then 5 else 0)
    + (if query.length ≤ 4 then 2 else 0)

/-! ### The query executor

`SearchEngine::search` and `SearchEngine::search_in_file`
(lib.rs:142-211). A cached file is its path plus the outcome of
`read_to_string(..)?.lines()`: `some lines` when readable, `none` when the
read fails (the search logs and skips such a file). -/

/-- One hit, the Rust `SearchResult` struct (lib.rs:9-18) minus the
wall-clock `indexed_at` field. -/
structure SearchResult where
  id : String
  title : String
  content : String
  score : Nat
  path : String
  line_number : Nat
deriving DecidableEq, Repr

/-- A cached document: its path and the outcome of reading it (`some` the
list of lines, `none` a read failure). -/
structure CachedFile where
  path : String
  content : Option (List String)
deriving DecidableEq, Repr

/-- The Rust `SearchResponse` struct (lib.rs:20-27). -/
structure SearchResponse where
  query : String
  results : List SearchResult
  total : Nat
  limit : Nat
  offset : Nat
deriving DecidableEq, Repr

/-- Model of `file_path.file_name().and_then(to_str).unwrap_or("Unknown")`
(lib.rs:193-196): the final path component. -/
def fileNameOf (path : String) : String :=
  match (splitOnChar '/' path.data).getLast? with
  | some s => if s.isEmpty then "Unknown" else ⟨s⟩
  | none => "Unknown"

/-- The hit `search_in_file` pushes for line `i` (0-based) of the file at
`path` (lib.rs:198-206): empty `id` (filled in later by `search`), a title
showing the 1-based line number, the original line as content, and the score
of the lowercased line. -/
def mkHit (path : String) (query : String) (i : Nat) (line : String) :
    SearchResult :=
  { id := ""
    title := fileNameOf path ++ " (line " ++ toString (i + 1) ++ ")"
    content := line
    score := calculate_score (toLowerStr line) query
    path := path
    line_number := i }

/-- The line loop of `search_in_file` (lib.rs:186-208): one hit per line
whose lowercased form contains the (already lowercased) query. -/
def searchLines (path : String) (lines : List String) (query : String) :
    List SearchResult :=
  lines.enum.filterMap fun p =>
    if strContains (toLowerStr p.2).data query.data then
      some (mkHit path query p.1 p.2)
    else none

/-- Model of `SearchEngine::search_in_file` (lib.rs:179-211): fail if the file cannot
be read; otherwise run the line loop. -/
def search_in_file (file : CachedFile) (query : String) :
    Except String (List SearchResult) :=
  match file.content with
  | none => Except.error "Failed to read file"
  | some lines => Except.ok (searchLines file.path lines query)

/-- The hit-collection loop of `SearchEngine::search` (lib.rs:146-158):
iterate the cache in order, stamp each hit's `id` with the document's cache
index and the hit's line number, and skip files whose read failed. -/
def collectHits (files : List CachedFile) (query_lower : String) :
    List SearchResult :=
  files.enum.flatMap fun fp =>
    match search_in_file fp.2 query_lower with
    | Except.ok rs =>
      rs.map fun r =>
        { r with id := toString fp.1 ++ "-" ++ toString r.line_number }
    | Except.error _ => []

/-- The sort comparator of lib.rs:161, `b.score.partial_cmp(&a.score)`:
descending by score. Scores are exact small integers, so `partial_cmp` is
the total `Nat` order. -/
def hitLE (a b : SearchResult) : Bool := decide (b.score ≤ a.score)

/-- Model of `SearchEngine::search` (lib.rs:142-177): lowercase the query once,
collect hits over the whole cache, stable-sort by descending score
(Rust `sort_by` is stable, modelled by `List.mergeSort`), record `total`,
then paginate with `skip(offset).take(limit)`. -/
def search (files : List CachedFile) (query : String) (limit offset : Nat) :
    SearchResponse :=
  let query_lower := toLowerStr query
  let sorted := (collectHits files query_lower).mergeSort hitLE
  let total := sorted.length
  { query := query
    results := (sorted.drop offset).take limit
    total := total
    limit := limit
    offset := offset }

/-- The number of lines of `lines` containing `query_lower` (already
lowercased) as a case-insensitive substring. -/
def matchingLines (lines : List String) (query_lower : String) : Nat :=
  (lines.filter fun line => strContains (toLowerStr line).data query_lower.data).length

/-- The exact corpus-wide match count the spec's `total` claims refer to:
lines containing the query case-insensitively, summed over the readable
cached documents. -/
def matchCount (files : List CachedFile) (query : String) : Nat :=
  (files.map fun f =>
    match f.content with
    | some lines => matchingLines lines (toLowerStr query)
    | none => 0).sum

/-- Modelled from the spec: the early-stop threshold of §4.3
(`target = offset + limit`; `target + 20000` if `target > 10000`, else
`target * 3`). No such computation exists anywhere in
`src/server/rust-search-engine/src/lib.rs`; the definition transcribes the
spec's formula so the claims that mention the threshold can be stated. -/
def specThreshold (limit offset : Nat) : Nat :=
  let target := offset + limit
  if target > 10000 then target + 20000 else target * 3

/-! ### The document cache

`SearchEngine::refresh_file_cache` (lib.rs:89-108). The recursive directory
walk is modelled by its outcome: the list of entries `WalkDir` yields in
discovery order, already restricted to the entries whose stat succeeded
(the code drops errored entries with `filter_map(|e| e.ok())`). -/

/-- One surviving entry of the `WalkDir` traversal: its path and whether its
file type is a regular file. -/
structure DirEntry where
  path : String
  isFile : Bool
deriving DecidableEq, Repr

/-- Rust `Path::extension`: the part of the final path component after its
last `.`; `none` when the component has no `.` or is a dotfile such as
`.txt` with no further dot. -/
def extension (path : String) : Option String :=
  let name := ((splitOnChar '/' path.data).getLast?).getD []
  match splitOnChar '.' name with
  | [] => none
  | [_] => none
  | [] :: [_] => none
  | parts => (parts.getLast?).map fun l => ⟨l⟩

/-- The filter of lib.rs:96-101: a regular file whose extension compares
equal to `"txt"` (an exact, case-sensitive `OsStr` comparison; a missing
extension is `unwrap_or(false)`). -/
def entryAccepted (e : DirEntry) : Bool :=
  e.isFile &&
    (match extension e.path with
     | some ext => ext == "txt"
     | none => false)

/-- Model of `SearchEngine::refresh_file_cache` (lib.rs:89-108): clear the cache;
when the root path exists and is a directory, push every accepted walk entry
in discovery order. Written as the source's accumulate-by-push loop. -/
def refresh_file_cache (rootOk : Bool) (walk : List DirEntry) : List String :=
  if rootOk then
    walk.foldl (fun acc e => if entryAccepted e then acc ++ [e.path] else acc) []
  else []

/-! ### Status and maintenance

`SearchEngine::get_status` (lib.rs:256-273) and
`SearchEngine::run_maintenance` (lib.rs:276-327). -/

/-- The Rust `Status` struct (lib.rs:46-53) minus the wall-clock
`last_updated`. -/
structure Status where
  index_exists : Bool
  index_healthy : Bool
  total_documents : Nat
  index_size_bytes : Nat
deriving DecidableEq, Repr

/-- The Rust `MaintenanceResult` struct (lib.rs:55-61) minus the wall-clock
`executed_at`. -/
structure MaintenanceResult where
  task : String
  success : Bool
  message : String
deriving DecidableEq, Repr

/-- The mutable fields of `SearchEngine` (lib.rs:63-67); `last_scanned` is
an abstract tick, `search_path` the configured root. -/
structure EngineState where
  search_path : String
  cached_files : List String
  last_scanned : Nat
deriving DecidableEq, Repr

/-- The file-system facts an engine operation consults: whether the root
currently exists and is a directory, the walk a refresh would discover, a
per-path metadata size (`none` = stat failure), a per-path deletion oracle
(`true` = `remove_file` succeeds), and the current clock tick. -/
structure FsEnv where
  rootOk : Bool
  walk : List DirEntry
  sizeOf : String → Option Nat
  deleteOk : String → Bool
  now : Nat

/-- Model of `refresh_file_cache` as a state transition: rebuild the cache from the
walk and update `last_scanned` unconditionally. The Rust function returns
`Result<()>` but has no failing path, which the `Except` layer records. -/
def refreshState (env : FsEnv) (st : EngineState) :
    Except String EngineState :=
  Except.ok { st with
    cached_files := refresh_file_cache env.rootOk env.walk
    last_scanned := env.now }

/-- Model of `SearchEngine::get_status` (lib.rs:256-273): one live root check feeds
both health fields; sizes are summed best-effort with stat failures
contributing zero. -/
def get_status (pathExists pathIsDir : Bool) (sizeOf : String → Option Nat)
    (st : EngineState) : Status :=
  let healthy := pathExists && pathIsDir
  let total_size :=
    st.cached_files.foldl (fun acc p => acc + (sizeOf p).getD 0) 0
  { index_exists := healthy
    index_healthy := healthy
    total_documents := st.cached_files.length
    index_size_bytes := total_size }

/-- Model of `SearchEngine::run_maintenance` (lib.rs:276-327): string-dispatch on the
task name. `cleanup` and `update-stats` refresh the cache; `clear-all`
attempts to delete every cached file (failures logged, not counted), then
refreshes and reports the number removed; anything else reports failure and
leaves the state untouched. The `Except` layer is the Rust `Result`,
threaded with `?` exactly where the source does. -/
def run_maintenance (env : FsEnv) (st : EngineState) (task : String) :
    Except String (EngineState × MaintenanceResult) :=
  if task == "cleanup" then
    (refreshState env st).bind fun st' =>
      Except.ok (st', { task := task
                        success := true
                        message := "File cache refreshed successfully" })
  else if task == "clear-all" then
    let files_removed := (st.cached_files.filter env.deleteOk).length
    (refreshState env st).bind fun st' =>
      Except.ok (st', { task := task
                        success := true
                        message := "Removed " ++ toString files_removed ++
                          " files from search directory" })
  else if task == "update-stats" then
    (refreshState env st).bind fun st' =>
      Except.ok (st', { task := task
                        success := true
                        message := "File cache refreshed successfully" })
  else
    Except.ok (st, { task := task
                     success := false
                     message := "Unknown maintenance task: " ++ task })

/-! ### Helper lemmas about the executor -/

/-- The line loop emits exactly one hit per matching line. -/
theorem searchLines_length (path : String) (lines : List String) (q : String) :
    (searchLines path lines q).length = matchingLines lines q := by
  suffices h : ∀ n : Nat,
      ((List.enumFrom n lines).filterMap fun p =>
        if strContains (toLowerStr p.2).data q.data then
          some (mkHit path q p.1 p.2)
        else none).length
      = (lines.filter fun line => strContains (toLowerStr line).data q.data).length by
    simpa [searchLines, List.enum, matchingLines] using h 0
  intro n
  induction lines generalizing n with
  | nil => rfl
  | cons x xs ih =>
    by_cases h : strContains (toLowerStr x).data q.data <;>
      simp [List.enumFrom, h, ih]

/-- Every hit of the line loop is the canonical hit of some matching line. -/
theorem mem_searchLines {path q : String} {lines : List String}
    {r : SearchResult} (h : r ∈ searchLines path lines q) :
    ∃ i line, lines.get? i = some line ∧
      strContains (toLowerStr line).data q.data = true ∧ r = mkHit path q i line := by
  rw [searchLines, List.mem_filterMap] at h
  obtain ⟨p, hp, hf⟩ := h
  by_cases hc : strContains (toLowerStr p.2).data q.data
  · refine ⟨p.1, p.2, ?_, hc, ?_⟩
    · exact List.mem_enum_iff_get?.mp hp
    · simp only [hc, if_true] at hf
      exact (Option.some_inj.mp hf).symm
  · simp [hc] at hf

/-- The hit-collection loop finds one hit per matching line of each readable
document. -/
theorem collectHits_length (files : List CachedFile) (q : String) :
    (collectHits files q).length
      = (files.map fun f =>
          match f.content with
          | some lines => matchingLines lines q
          | none => 0).sum := by
  suffices h : ∀ n : Nat,
      ((List.enumFrom n files).flatMap fun fp =>
        match search_in_file fp.2 q with
        | Except.ok rs =>
          rs.map fun r =>
            { r with id := toString fp.1 ++ "-" ++ toString r.line_number }
        | Except.error _ => []).length
      = (files.map fun f =>
          match f.content with
          | some lines => matchingLines lines q
          | none => 0).sum by
    simpa [collectHits, List.enum] using h 0
  intro n
  induction files generalizing n with
  | nil => rfl
  | cons f fs ih =>
    rw [List.enumFrom_cons, List.flatMap_cons, List.length_append, ih (n + 1)]
    cases hc : f.content with
    | none => simp [search_in_file, hc]
    | some lines => simp [search_in_file, hc, searchLines_length]

/-- The reported `total` is the exact corpus-wide match count (readable
documents counted in full, unreadable ones skipped). -/
theorem search_total_eq (files : List CachedFile) (query : String)
    (limit offset : Nat) :
    (search files query limit offset).total = matchCount files query := by
  simp [search, matchCount, List.length_mergeSort, collectHits_length]

/-- Every collected hit records a real matching line: its document's cache
index and its 0-based line number appear in `id`, the 1-based line number in
`title`, and its score is the scorer's value on the lowercased line. -/
theorem mem_collectHits {files : List CachedFile} {q : String}
    {r : SearchResult} (h : r ∈ collectHits files q) :
    ∃ fidx f lines line,
      files.get? fidx = some f ∧ f.content = some lines ∧
      lines.get? r.line_number = some line ∧
      strContains (toLowerStr line).data q.data = true ∧
      r.content = line ∧
      r.id = toString fidx ++ "-" ++ toString r.line_number ∧
      r.title = fileNameOf f.path ++ " (line " ++ toString (r.line_number + 1) ++ ")" ∧
      r.path = f.path ∧
      r.score = calculate_score (toLowerStr line) q := by
  rw [collectHits, List.mem_flatMap] at h
  obtain ⟨fp, hfp, hr⟩ := h
  have hget := List.mem_enum_iff_get?.mp hfp
  cases hc : fp.2.content with
  | none => rw [search_in_file, hc] at hr; simp at hr
  | some lines =>
    rw [search_in_file, hc] at hr
    simp only [List.mem_map] at hr
    obtain ⟨r0, hr0, hr0eq⟩ := hr
    obtain ⟨i, line, hline, hcont, hr0form⟩ := mem_searchLines hr0
    subst hr0form
    subst hr0eq
    exact ⟨fp.1, fp.2, lines, line, hget, hc, hline, hcont, rfl, rfl, rfl, rfl, rfl⟩

/-- Every returned result was a collected hit. -/
theorem mem_results {files : List CachedFile} {query : String}
    {limit offset : Nat} {r : SearchResult}
    (h : r ∈ (search files query limit offset).results) :
    r ∈ collectHits files (toLowerStr query) := by
  simp only [search] at h
  exact ((List.mergeSort_perm _ _).mem_iff).mp
    (List.drop_subset _ _ (List.take_subset _ _ h))

/-- The sort comparator is transitive. -/
theorem hitLE_trans (a b c : SearchResult) :
    hitLE a b = true → hitLE b c = true → hitLE a c = true := by
  simp only [hitLE, decide_eq_true_eq]
  omega

/-- The sort comparator is total. -/
theorem hitLE_total (a b : SearchResult) :
    (hitLE a b || hitLE b a) = true := by
  simp only [hitLE, Bool.or_eq_true, decide_eq_true_eq]
  omega

/-- Unfolding the push loop of `refresh_file_cache` into a filter. -/
theorem refresh_foldl_eq (walk : List DirEntry) (acc : List String) :
    walk.foldl (fun acc e => if entryAccepted e then acc ++ [e.path] else acc) acc
      = acc ++ (walk.filter entryAccepted).map DirEntry.path := by
  induction walk generalizing acc with
  | nil => simp
  | cons e es ih =>
    by_cases h : entryAccepted e <;> simp [h, ih]

/-! ### The claims -/

/-- C3: for every lowercased line and lowercased query the score equals
(non-overlapping occurrences) * 10, plus 5 when the query has length at
least 2 and the line matches the word-boundary regex around the escaped
query, plus 2 when the query has length at most 4, the two boosts stacking
independently. -/
theorem C3_score_formula (text query : String) :
    calculate_score text query = score_spec text query := by
  by_cases h2 : 2 ≤ query.length <;>
  by_cases hw : wbMatch query.data text.data <;>
  by_cases h4 : query.length ≤ 4 <;>
  simp [calculate_score, score_spec, compileWordBoundary, h2, hw, h4]

/-- C10: `get_status` sets `index_exists` and `index_healthy` from the one
boolean "search path exists and is a directory", so the two fields are
always equal. -/
theorem C10_status_fields (pathExists pathIsDir : Bool)
    (sizeOf : String → Option Nat) (st : EngineState) :
    (get_status pathExists pathIsDir sizeOf st).index_exists
        = (get_status pathExists pathIsDir sizeOf st).index_healthy ∧
    (get_status pathExists pathIsDir sizeOf st).index_exists
        = (pathExists && pathIsDir) := by
  constructor <;> rfl

/-- C7: for every task string other than the three recognized ones,
`run_maintenance` reports `success = false` with a message naming the task
and returns the engine state (cached file list, `last_scanned`, search path)
unchanged. -/
theorem C7_unknown_task (env : FsEnv) (st : EngineState) (task : String)
    (h1 : task ≠ "cleanup") (h2 : task ≠ "update-stats")
    (h3 : task ≠ "clear-all") :
    run_maintenance env st task
      = Except.ok (st,
          { task := task
            success := false
            message := "Unknown maintenance task: " ++ task }) := by
  simp [run_maintenance, h1, h2, h3]

/-- Witness for C7 at the concrete task `"optimize"`. -/
theorem C7_unknown_task_witness :
    run_maintenance
        { rootOk := true, walk := [], sizeOf := fun _ => none,
          deleteOk := fun _ => true, now := 0 }
        { search_path := "index", cached_files := ["index/a.txt"],
          last_scanned := 0 }
        "optimize"
      = Except.ok
          ({ search_path := "index", cached_files := ["index/a.txt"],
             last_scanned := 0 },
           { task := "optimize"
             success := false
             message := "Unknown maintenance task: optimize" }) :=
  C7_unknown_task _ _ _ (by decide) (by decide) (by decide)

/-- C8: `run_maintenance` never returns a hard error: every task yields
`Except.ok` with a structured result, and the `clear-all` branch in
particular reports `success = true` with a message counting the successful
deletions even when some deletions fail (they are simply not counted). -/
theorem C8_never_hard_error (env : FsEnv) (st : EngineState) (task : String) :
    (∃ out, run_maintenance env st task = Except.ok out) ∧
    run_maintenance env st "clear-all"
      = Except.ok
          ({ st with
              cached_files := refresh_file_cache env.rootOk env.walk
              last_scanned := env.now },
           { task := "clear-all"
             success := true
             message := "Removed "
               ++ toString (st.cached_files.filter env.deleteOk).length
               ++ " files from search directory" }) := by
  constructor
  · rw [run_maintenance]
    split_ifs <;> exact ⟨_, rfl⟩
  · rfl

/-- C2 counterexample: a regular file `a.TXT`, whose extension matches the
accepted type case-insensitively, is absent from the cache after a refresh
(the code's `OsStr` comparison `ext == "txt"` is case-sensitive). -/
theorem C2_counterexample :
    refresh_file_cache true [{ path := "a.TXT", isFile := true }] = [] ∧
    (match extension "a.TXT" with
     | some ext => toLowerStr ext == "txt"
     | none => false) = true := by
  constructor <;> rfl

/-- C2 amended: after a refresh the cache contains exactly the regular files
of the walk whose extension is exactly `"txt"` (a case-sensitive match), in
walk-discovery order — and is empty when the root is missing or not a
directory. -/
theorem C2_case_sensitive_refresh (rootOk : Bool) (walk : List DirEntry) :
    refresh_file_cache rootOk walk
      = if rootOk then
          (walk.filter fun e =>
            e.isFile && decide (extension e.path = some "txt")).map DirEntry.path
        else [] := by
  have hpred : ∀ e : DirEntry,
      entryAccepted e = (e.isFile && decide (extension e.path = some "txt")) := by
    intro e
    cases hx : extension e.path with
    | none => simp [entryAccepted, hx]
    | some ext =>
      simp only [entryAccepted, hx]
      by_cases h : ext = "txt" <;> simp [h]
  rw [refresh_file_cache]
  split_ifs with hr
  · rw [refresh_foldl_eq, List.nil_append,
      show entryAccepted = fun e =>
        (e.isFile && decide (extension e.path = some "txt")) from funext hpred]
  · rfl

unseal List.merge List.mergeSort in
/-- C1 counterexample: with `limit = 1`, `offset = 0` the claimed threshold
is `3`, yet a search over a single document with four matching lines
collects and reports all four hits — the executor never stops early at the
threshold. -/
theorem C1_counterexample :
    specThreshold 1 0 = 3 ∧
    (search
        [{ path := "docs/a.txt",
           content := some ["hello", "hello", "hello", "hello"] }]
        "hello" 1 0).total = 4 := by
  constructor
  · rfl
  · rfl

/-- C1 amended: the executor applies no early-stop threshold at all — it
scans every cached document to the end and `total` always equals the full
count of matching lines across all readable cached documents, for every
`limit` and `offset`. -/
theorem C1_no_early_stop (files : List CachedFile) (query : String)
    (limit offset : Nat) :
    (search files query limit offset).total = matchCount files query :=
  search_total_eq files query limit offset

/-- C4: when the number of matches found is strictly below the early-stop
threshold and every cached document is readable, `total` equals the exact
count of lines containing the query as a case-insensitive substring across
all cached documents. (The code never stops early, so the conclusion in
fact holds for every search; the hypotheses are the claim's.) -/
theorem C4_total_exact_below_threshold (files : List CachedFile)
    (query : String) (limit offset : Nat)
    (hread : ∀ f ∈ files, f.content ≠ none)
    (hlt : (search files query limit offset).total
      < specThreshold limit offset) :
    (search files query limit offset).total = matchCount files query :=
  search_total_eq files query limit offset

unseal List.merge List.mergeSort in
/-- Witness for C4: a one-document corpus with one matching line, well
below the threshold of 30 for `limit = 10`, `offset = 0`. -/
theorem C4_total_exact_below_threshold_witness :
    (search [{ path := "docs/a.txt", content := some ["Hello World", "goodbye"] }]
        "hello" 10 0).total < specThreshold 10 0 ∧
    (search [{ path := "docs/a.txt", content := some ["Hello World", "goodbye"] }]
        "hello" 10 0).total
      = matchCount
          [{ path := "docs/a.txt", content := some ["Hello World", "goodbye"] }]
          "hello" :=
  ⟨by decide,
   C4_total_exact_below_threshold _ _ _ _ (by decide) (by decide)⟩

/-- C5: the returned results are sorted by non-increasing score, and hits of
equal score keep their relative discovery order: filtering the stable-sorted
hit sequence to any one score yields exactly the discovery-order hits of
that score. -/
theorem C5_sorted_and_stable (files : List CachedFile) (query : String)
    (limit offset : Nat) :
    List.Pairwise (fun a b => b.score ≤ a.score)
      (search files query limit offset).results ∧
    ∀ s : Nat,
      (((collectHits files (toLowerStr query)).mergeSort hitLE).filter
          fun r => r.score == s)
        = ((collectHits files (toLowerStr query)).filter fun r => r.score == s) := by
  constructor
  · have hs := List.sorted_mergeSort hitLE_trans hitLE_total
      (collectHits files (toLowerStr query))
    have hsub : ((search files query limit offset).results).Sublist
        ((collectHits files (toLowerStr query)).mergeSort hitLE) := by
      simp only [search]
      exact (List.take_sublist _ _).trans (List.drop_sublist _ _)
    exact (hs.sublist hsub).imp fun h => of_decide_eq_true h
  · intro s
    have hpw : List.Pairwise (fun a b => hitLE a b = true)
        ((collectHits files (toLowerStr query)).filter fun r => r.score == s) := by
      apply List.pairwise_of_forall_mem_list
      intro a ha b hb
      have ha' := (List.mem_filter.mp ha).2
      have hb' := (List.mem_filter.mp hb).2
      simp only [beq_iff_eq] at ha' hb'
      simp [hitLE, ha', hb']
    have hsub := List.sublist_mergeSort hitLE_trans hitLE_total hpw
      (List.filter_sublist _)
    have hsub2 := hsub.filter fun r => r.score == s
    rw [List.filter_eq_self.mpr fun a ha => (List.mem_filter.mp ha).2] at hsub2
    have hlen :=
      ((List.mergeSort_perm (collectHits files (toLowerStr query)) hitLE).filter
        fun r => r.score == s).length_eq
    exact (hsub2.eq_of_length hlen.symm).symm

/-- C6: `results.len() ≤ limit`; `results` is the `[offset, offset+limit)`
slice of the sorted hit sequence; and an offset at or beyond the collected
hit count yields empty results while `total` still reports the full
collected count. -/
theorem C6_pagination (files : List CachedFile) (query : String)
    (limit offset : Nat) :
    (search files query limit offset).results.length ≤ limit ∧
    (search files query limit offset).results
      = (((collectHits files (toLowerStr query)).mergeSort hitLE).take
          (offset + limit)).drop offset ∧
    ((search files query limit offset).total ≤ offset →
      (search files query limit offset).results = [] ∧
      (search files query limit offset).total
        = (collectHits files (toLowerStr query)).length) := by
  refine ⟨?_, ?_, fun h => ⟨?_, ?_⟩⟩
  · simp only [search]
    exact List.length_take_le _ _
  · simp only [search]
    rw [List.drop_take, Nat.add_sub_cancel_left]
  · simp only [search] at h ⊢
    rw [List.drop_eq_nil_of_le h, List.take_nil]
  · simp only [search, List.length_mergeSort]

unseal List.merge List.mergeSort in
/-- Witness for C6: a two-hit corpus paged at `offset = 7`, past the
collected set. -/
theorem C6_pagination_witness :
    (search [{ path := "docs/a.txt", content := some ["x", "x"] }] "x" 5 7).total ≤ 7 ∧
    (search [{ path := "docs/a.txt", content := some ["x", "x"] }] "x" 5 7).results = [] ∧
    (search [{ path := "docs/a.txt", content := some ["x", "x"] }] "x" 5 7).total
      = (collectHits [{ path := "docs/a.txt", content := some ["x", "x"] }]
          (toLowerStr "x")).length := by
  refine ⟨by decide, ?_, ?_⟩
  · exact ((C6_pagination [{ path := "docs/a.txt", content := some ["x", "x"] }]
      "x" 5 7).2.2 (by decide)).1
  · exact ((C6_pagination [{ path := "docs/a.txt", content := some ["x", "x"] }]
      "x" 5 7).2.2 (by decide)).2

/-- C9: every returned hit records the 0-based index of a real line of a
cached document in `line_number`, displays the 1-based line number in
`title`, and embeds the document's cache index together with the 0-based
line number in `id`. -/
theorem C9_hit_fields (files : List CachedFile) (query : String)
    (limit offset : Nat) (r : SearchResult)
    (h : r ∈ (search files query limit offset).results) :
    ∃ fidx f lines line,
      files.get? fidx = some f ∧ f.content = some lines ∧
      lines.get? r.line_number = some line ∧
      r.id = toString fidx ++ "-" ++ toString r.line_number ∧
      r.title = fileNameOf f.path ++ " (line "
        ++ toString (r.line_number + 1) ++ ")" := by
  obtain ⟨fidx, f, lines, line, h1, h2, h3, _, _, h6, h7, _, _⟩ :=
    mem_collectHits (mem_results h)
  exact ⟨fidx, f, lines, line, h1, h2, h3, h6, h7⟩

unseal List.merge List.mergeSort in
/-- Witness for C9: the hit for line 0 of the only cached document, whose
`id` is `"0-0"` and whose title shows line 1. -/
theorem C9_hit_fields_witness :
    ∃ fidx f lines line,
      ([{ path := "dir/a.txt", content := some ["hello"] }] : List CachedFile).get? fidx
        = some f ∧
      f.content = some lines ∧
      lines.get? (0 : Nat) = some line ∧
      ("0-0" : String) = toString fidx ++ "-" ++ toString (0 : Nat) ∧
      ("a.txt (line 1)" : String) = fileNameOf f.path ++ " (line "
        ++ toString ((0 : Nat) + 1) ++ ")" :=
  C9_hit_fields [{ path := "dir/a.txt", content := some ["hello"] }] "hello" 10 0
    { id := "0-0", title := "a.txt (line 1)", content := "hello",
      score := 15, path := "dir/a.txt", line_number := 0 }
    (by decide)

end FTS
